import Mathlib

/-!
Verification development for the HMM shipping-tracking automation script
(src/browser_auto.py).  The pure decision logic of the script is shallowly
embedded here: Python dicts of recorded browser actions become ordered
association lists, the file system and the external browser agent become
an explicit environment record, and the outward-visible effects of one
call to `fetch_hmm` (returned value, agent configuration, run invocation,
file write, error log) become an explicit trace record.  The type `α`
abstracts the JSON parameter payload carried by each recorded action.
-/

namespace BrowserAuto

/-- One entry of a recorded action: the action name mapped to its
parameters (`α` abstracts the JSON payload). -/
abbrev ActionEntry (α : Type) := String × α

/-- One record of the output of `model_actions()`: a Python dict
modelled as an association list in insertion order (Python dicts iterate
in insertion order). -/
abbrev ActionRecord (α : Type) := List (ActionEntry α)

/-- Inner loop of `save_actions` (src/browser_auto.py:102-107): scan the
record items in order; an item whose key equals "interacted_element" is
skipped, and the first item with any other key is kept, after which the
loop breaks.  A record whose every key is "interacted_element" (or an
empty record) yields nothing. -/
def firstActionEntry {α : Type} : ActionRecord α → Option (ActionEntry α)
  | [] => none
  | (action_name, parameters) :: rest =>
      if action_name ≠ "interacted_element" then some (action_name, parameters)
      else firstActionEntry rest

/-- Pure core of `save_actions` (src/browser_auto.py:83-110): the list
that the function serializes to agent_action_steps.json. -/
def save_actions {α : Type} (stored_actions : List (ActionRecord α)) :
    List (ActionEntry α) :=
  stored_actions.filterMap firstActionEntry

/-- Boolean test that `needle` occurs at the start of `hay`
(character-by-character comparison). -/
def startsWith : List Char → List Char → Bool
  | [], _ => true
  | _ :: _, [] => false
  | a :: as, b :: bs => a == b && startsWith as bs

/-- Boolean substring test, modelling the Python expression
`needle in hay` on strings: `needle` occurs contiguously in `hay`. -/
def occursIn (needle : List Char) : List Char → Bool
  | [] => startsWith needle []
  | c :: rest => startsWith needle (c :: rest) || occursIn needle rest

/-- Python `str.lower()`, modelled as the per-character lowercase map
over the characters of the string. -/
def pyLower (s : String) : String := ⟨s.data.map Char.toLower⟩

/-- Substring containment as a proposition: `needle` occurs contiguously
inside `hay`. -/
def strIn (needle hay : String) : Prop :=
  ∃ pre post : List Char, hay.data = pre ++ needle.data ++ post

/-- Failure substrings checked by the retry hook
(src/browser_auto.py:76). -/
def error_indicators : List String :=
  ["error", "failed", "invalid", "incorrect", "unable"]

/-- Instruction text enqueued by the retry hook
(src/browser_auto.py:80). -/
def retry_instruction : String := "Retry to complete the original task"

/-- Outward-visible effect of one invocation of the retry hook: whether
the failure message was printed, and the tasks enqueued through
`agent.add_new_task`. -/
structure RetryEffect where
  detectedFailure : Bool
  newTasks : List String
  deriving DecidableEq

/-- The retry hook `retry_hook` (src/browser_auto.py:56-80), as a function
of the current page address: if any of the error indicators occurs in the
lowercased address, it prints a notice and enqueues exactly one retry
instruction; otherwise it does nothing. -/
def retry_hook (current_url : String) : RetryEffect :=
  if error_indicators.any (fun err => occursIn err.data (pyLower current_url).data) then
    { detectedFailure := true, newTasks := [retry_instruction] }
  else
    { detectedFailure := false, newTasks := [] }

/-- Outward-visible effect of one invocation of the pacing hook: the
slept duration, and the pointer move issued (if any). -/
structure PacingEffect (α : Type) where
  slept : α
  mouseMove : Option (Int × Int)
  deriving DecidableEq

/-- The pacing hook `anti_detection_hook` (src/browser_auto.py:40-53), as
a function of the random draws it consumes: `delay` is the value drawn by
`random.uniform(1.0, 3.0)`, `r` the value drawn by `random.random()`, and
`mouseX`, `mouseY` the values drawn by `random.randint(100, 800)` and
`random.randint(100, 600)`.  It sleeps for `delay` and, when `r < 0.3`,
issues one pointer move to `(mouseX, mouseY)`. -/
def anti_detection_hook {α : Type} [LinearOrderedField α]
    (delay r : α) (mouseX mouseY : Int) : PacingEffect α :=
  { slept := delay
    mouseMove := if r < 3 / 10 then some (mouseX, mouseY) else none }

/-- Names for the two hook callbacks handed to `agent.run`. -/
inductive HookRef
  | antiDetection
  | retry
  deriving DecidableEq

/-- The control arguments passed to `agent.run` at its two call sites
(src/browser_auto.py:156-160 and 184-188): the two step hooks and the
step cap.  These are the only control arguments the code passes. -/
structure RunCall where
  onStepStart : HookRef
  onStepEnd : HookRef
  maxSteps : Nat
  deriving DecidableEq

/-- The run call made on both paths of `fetch_hmm`. -/
def theRunCall : RunCall :=
  { onStepStart := HookRef.antiDetection, onStepEnd := HookRef.retry, maxSteps := 20 }

/-- Outcome of `await agent.run(...)`: either the call raises, or it
completes with `result.final_result()` (an optional string) and
`result.model_actions()` (the recorded action list). -/
inductive AgentRunOutcome (α : Type)
  | raises
  | completes (finalResult : Option String) (modelActions : List (ActionRecord α))
  deriving DecidableEq

/-- Environment of one `fetch_hmm` call: whether agent_action_steps.json
exists, whether `json.load` on it succeeds, the parsed contents when it
does, and the outcome of the agent run on the path taken. -/
structure Env (α : Type) where
  stepsFileExists : Bool
  parseOk : Bool
  storedSteps : List (ActionEntry α)
  agentRun : AgentRunOutcome α
  deriving DecidableEq

/-- The arguments with which `fetch_hmm` constructs its `Agent`: the task
text, the optional message context, and the optional seeded initial
actions. -/
structure AgentConfig (α : Type) where
  task : String
  messageContext : Option String
  initialActions : Option (List (ActionEntry α))
  deriving DecidableEq

/-- Outward-visible trace of one `fetch_hmm` call: the returned value
(`none` models the Python implicit `None` fall-through after the swallowed
exception), the agent configuration built (if execution got that far),
the `agent.run` invocation made (if any), the list written to
agent_action_steps.json (if any write happened), and whether the except
branch printed its error message. -/
structure FetchTrace (α : Type) where
  ret : Option String
  agentConfig : Option (AgentConfig α)
  runCall : Option RunCall
  fileWritten : Option (List (ActionEntry α))
  loggedError : Bool
  deriving DecidableEq

/-- Target site named in the fresh-discovery task
(src/browser_auto.py:171). -/
def target_url : String := "http://www.seacargotracking.net/"

/-- Sentinel returned when the agent produced no usable final answer
(src/browser_auto.py:164 and 196). -/
def no_results : String := "No results found"

/-- Task text of the replay path (src/browser_auto.py:148). -/
def replayTask (booking_id : String) : String :=
  "Given an HMM booking ID \"" ++ booking_id ++
    "\", retrieve voyage and arrival from HMM Shipping line."

/-- Message context of the replay path (src/browser_auto.py:149-151). -/
def replayContext (booking_id : String) : String :=
  "Replaying previous actions with new booking ID \"" ++ booking_id ++
    "\"\n                                and return the new voyage number and arrival date in the format \n                                Voyage: <voyage_number>, Arrival: <arrival_date>"

/-- Text of the fresh-discovery task before the booking id
(src/browser_auto.py:168-170). -/
def freshTaskPart1 : String :=
  "\n            Your task:\n            Given an HMM booking ID \""

/-- Text of the fresh-discovery task between the booking id and the
target site address (src/browser_auto.py:170-171). -/
def freshTaskPart2 : String :=
  "\", retrieve voyage and arrival from HMM Shipping line.\n            First, navigate to exactly website: "

/-- Text of the fresh-discovery task after the target site address
(src/browser_auto.py:172-177). -/
def freshTaskPart3 : String :=
  "\n            Scroll down to find and navigate to the link \"HYUNDAI Merchant Marine (HMM)\" and stay on that link\n            Scroll down to find \"Track and Trace\" and input the booking ID in the box and search.\n            Wait for the results to load or try Refreshing the page only if Blocked by the website.\n            Scroll down to find the voyage number and arrival date.\n            Only return the Final Answer in the format \"Voyage: <voyage_number>, Arrival: <arrival_date>\"\n            "

/-- Full task text of the fresh-discovery path
(src/browser_auto.py:168-177). -/
def freshTask (booking_id : String) : String :=
  freshTaskPart1 ++ booking_id ++ (freshTaskPart2 ++ (target_url ++ freshTaskPart3))

/-- Python truthiness of `final_result` (an optional string): `None` and
the empty string are falsy, every other string is truthy. -/
def strTruthy : Option String → Bool
  | none => false
  | some s => !(s == "")

/-- Value returned by the tail of both branches
(src/browser_auto.py:162-164 and 192-196): the final result when it is
truthy, the sentinel otherwise. -/
def resultOrSentinel (finalResult : Option String) : String :=
  match finalResult with
  | some s => if s = "" then no_results else s
  | none => no_results

/-- Shallow embedding of `fetch_hmm` (src/browser_auto.py:113-199) as a
function of the booking id and the environment.  The branch on
`steps_file.exists()` picks the replay or the fresh-discovery path; each
path builds its agent, runs it with the two hooks and the step cap of 20,
and converts the outcome with `resultOrSentinel`; only a fresh run with a
truthy final result writes agent_action_steps.json; the outer except
branch turns any raise into a logged message and the Python implicit `None`
return. -/
def fetch_hmm {α : Type} (booking_id : String) (env : Env α) : FetchTrace α :=
  if env.stepsFileExists then
    if env.parseOk then
      let cfg : AgentConfig α :=
        { task := replayTask booking_id
          messageContext := some (replayContext booking_id)
          initialActions := some env.storedSteps }
      match env.agentRun with
      | AgentRunOutcome.raises =>
          { ret := none, agentConfig := some cfg, runCall := some theRunCall
            fileWritten := none, loggedError := true }
      | AgentRunOutcome.completes finalResult _ =>
          { ret := some (resultOrSentinel finalResult)
            agentConfig := some cfg
            runCall := some theRunCall
            fileWritten := none
            loggedError := false }
    else
      { ret := none, agentConfig := none, runCall := none
        fileWritten := none, loggedError := true }
  else
    let cfg : AgentConfig α :=
      { task := freshTask booking_id
        messageContext := none
        initialActions := none }
    match env.agentRun with
    | AgentRunOutcome.raises =>
        { ret := none, agentConfig := some cfg, runCall := some theRunCall
          fileWritten := none, loggedError := true }
    | AgentRunOutcome.completes finalResult modelActions =>
        { ret := some (resultOrSentinel finalResult)
          agentConfig := some cfg
          runCall := some theRunCall
          fileWritten :=
            if strTruthy finalResult then some (save_actions modelActions) else none
          loggedError := false }

/-- A run raised somewhere inside the try body of `fetch_hmm`: either the
`json.load` of the replay path failed, or the agent run on the path actually
taken raised. -/
def raisedDuringRun {α : Type} (env : Env α) : Prop :=
  (env.stepsFileExists = true ∧ env.parseOk = false) ∨
    ((env.stepsFileExists = true → env.parseOk = true) ∧
      env.agentRun = AgentRunOutcome.raises)

/-- Result strings of the documented shape
"Voyage: <voyage_number>, Arrival: <arrival_date>". -/
def voyageArrivalShape (s : String) : Prop :=
  ∃ a b : String, s = "Voyage: " ++ a ++ ", Arrival: " ++ b

/-- Sample action list used to instantiate the serializer theorems. -/
def sampleRecords : List (ActionRecord Nat) :=
  [[("go_to_url", 1), ("interacted_element", 2)],
   [("interacted_element", 3), ("click_element", 4)]]

/-- Sample environment: no trace file, agent completes without a final
answer. -/
def freshEnv : Env Nat :=
  { stepsFileExists := false, parseOk := true, storedSteps := []
    agentRun := AgentRunOutcome.completes none [] }

/-- Sample environment: trace file present and parsed, agent run
raises. -/
def replayEnv : Env Nat :=
  { stepsFileExists := true, parseOk := true, storedSteps := [("go_to_url", 7)]
    agentRun := AgentRunOutcome.raises }

/-- Sample environment: trace file present but `json.load` fails. -/
def badParseEnv : Env Nat :=
  { stepsFileExists := true, parseOk := false, storedSteps := []
    agentRun := AgentRunOutcome.completes none [] }

/-- Sample environment: no trace file, fresh run completes with a
nonempty final answer. -/
def successEnv : Env Nat :=
  { stepsFileExists := false, parseOk := true, storedSteps := []
    agentRun := AgentRunOutcome.completes (some "Voyage: 123, Arrival: Jan 1") [] }

/-! Helper lemmas about the trace serializer. -/

/-- Unfolding lemma for `firstActionEntry` on a cons cell. -/
theorem firstActionEntry_cons {α : Type} (k : String) (v : α) (rest : ActionRecord α) :
    firstActionEntry ((k, v) :: rest)
      = if k ≠ "interacted_element" then some (k, v) else firstActionEntry rest := rfl

/-- A record holding at least one key other than "interacted_element"
yields an entry. -/
theorem firstActionEntry_isSome_of_exists {α : Type} :
    ∀ a : ActionRecord α, (∃ e ∈ a, e.1 ≠ "interacted_element") →
      ∃ e, firstActionEntry a = some e := by
  intro a
  induction a with
  | nil => rintro ⟨e, he, -⟩; simp at he
  | cons kv rest ih =>
      rintro ⟨e, he, hne⟩
      obtain ⟨k, v⟩ := kv
      by_cases hk : k ≠ "interacted_element"
      · exact ⟨(k, v), by rw [firstActionEntry_cons, if_pos hk]⟩
      · push_neg at hk
        rcases List.mem_cons.mp he with rfl | hmem
        · exact absurd hk hne
        · obtain ⟨e2, he2⟩ := ih ⟨e, hmem, hne⟩
          exact ⟨e2, by rw [firstActionEntry_cons]; simp [hk]; exact he2⟩

/-- The entry kept from a record is one of the items of the record and its key
differs from "interacted_element". -/
theorem firstActionEntry_mem_and_key {α : Type} :
    ∀ (a : ActionRecord α) (e : ActionEntry α), firstActionEntry a = some e →
      e ∈ a ∧ e.1 ≠ "interacted_element" := by
  intro a
  induction a with
  | nil => intro e he; simp [firstActionEntry] at he
  | cons kv rest ih =>
      intro e he
      obtain ⟨k, v⟩ := kv
      rw [firstActionEntry_cons] at he
      by_cases hk : k ≠ "interacted_element"
      · rw [if_pos hk] at he
        cases he
        exact ⟨List.mem_cons_self _ _, hk⟩
      · rw [if_neg hk] at he
        obtain ⟨hmem, hkey⟩ := ih e he
        exact ⟨List.mem_cons_of_mem _ hmem, hkey⟩

/-- When every record of the input holds an action key, the serializer
keeps exactly one entry per record. -/
theorem save_actions_length_of_forall {α : Type} :
    ∀ l : List (ActionRecord α), (∀ a ∈ l, ∃ e ∈ a, e.1 ≠ "interacted_element") →
      (save_actions l).length = l.length := by
  intro l
  induction l with
  | nil => intro _; rfl
  | cons a rest ih =>
      intro h
      obtain ⟨e, he⟩ := firstActionEntry_isSome_of_exists a (h a (List.mem_cons_self a rest))
      have hrest := ih (fun b hb => h b (List.mem_cons_of_mem a hb))
      simp only [save_actions] at hrest ⊢
      rw [List.filterMap_cons_some he, List.length_cons, hrest, List.length_cons]

/-- No emitted entry carries the key "interacted_element". -/
theorem save_actions_keys_ne {α : Type} (l : List (ActionRecord α)) :
    ∀ e ∈ save_actions l, e.1 ≠ "interacted_element" := by
  intro e he
  rw [save_actions, List.mem_filterMap] at he
  obtain ⟨a, -, ha⟩ := he
  exact (firstActionEntry_mem_and_key a e ha).2

/-- The kept entry is the first item of the record whose key passes the
"interacted_element" filter. -/
theorem firstActionEntry_eq_find {α : Type} :
    ∀ a : ActionRecord α,
      firstActionEntry a = a.find? (fun e => e.1 != "interacted_element") := by
  intro a
  induction a with
  | nil => rfl
  | cons kv rest ih =>
      obtain ⟨k, v⟩ := kv
      by_cases hk : k = "interacted_element"
      · rw [firstActionEntry_cons, if_neg (by simp [hk]), ih,
          List.find?_cons_of_neg _ (by simp [hk])]
      · rw [firstActionEntry_cons, if_pos hk, List.find?_cons_of_pos _ (by simp [hk])]

/-- A record whose every key is "interacted_element" yields no entry. -/
theorem firstActionEntry_eq_none_of_all {α : Type} :
    ∀ a : ActionRecord α, (∀ e ∈ a, e.1 = "interacted_element") →
      firstActionEntry a = none := by
  intro a
  induction a with
  | nil => intro _; rfl
  | cons kv rest ih =>
      intro h
      obtain ⟨k, v⟩ := kv
      have hk : k = "interacted_element" := h (k, v) (List.mem_cons_self _ _)
      rw [firstActionEntry_cons, if_neg (by simp [hk])]
      exact ih (fun e he => h e (List.mem_cons_of_mem _ he))

/-- List fact used to phrase the serializer as an in-order flattening. -/
theorem filterMap_eq_flatMap_toList {α β : Type} (f : α → Option β) (l : List α) :
    l.filterMap f = l.flatMap (fun a => (f a).toList) := by
  induction l with
  | nil => rfl
  | cons a rest ih =>
      cases hfa : f a with
      | none => rw [List.filterMap_cons_none hfa, List.flatMap_cons, hfa, ih]; rfl
      | some b => rw [List.filterMap_cons_some hfa, List.flatMap_cons, hfa, ih]; rfl

/-- C1: given action records (each holding an action key besides the
auxiliary "interacted_element" field), `save_actions` emits a list with
exactly one action entry per input record and no emitted entry carries
the auxiliary "interacted_element" key. -/
theorem save_actions_keeps_one_action_per_record {α : Type}
    (stored_actions : List (ActionRecord α))
    (hrec : ∀ a ∈ stored_actions, ∃ e ∈ a, e.1 ≠ "interacted_element") :
    (save_actions stored_actions).length = stored_actions.length ∧
      ∀ e ∈ save_actions stored_actions, e.1 ≠ "interacted_element" :=
  ⟨save_actions_length_of_forall stored_actions hrec,
    save_actions_keys_ne stored_actions⟩

/-- Witness for C1 at a concrete two-record action list. -/
theorem save_actions_keeps_one_action_per_record_witness :
    (∀ a ∈ sampleRecords, ∃ e ∈ a, e.1 ≠ "interacted_element") ∧
      ((save_actions sampleRecords).length = sampleRecords.length ∧
        ∀ e ∈ save_actions sampleRecords, e.1 ≠ "interacted_element") :=
  ⟨by decide, save_actions_keeps_one_action_per_record sampleRecords (by decide)⟩

/-- C10: the output of the serializer is an order-preserving reduction of its
input: it equals the in-order flattening that keeps, from each record,
the first item whose key is not "interacted_element"; its length never
exceeds the length of the input; a record whose keys are all "interacted_element"
contributes nothing; and the output can be strictly shorter than the
input. -/
theorem save_actions_order_preserving_reduction :
    (∀ (α : Type) (l : List (ActionRecord α)),
        save_actions l
          = l.flatMap (fun a => ((a.find? (fun e => e.1 != "interacted_element")).toList))) ∧
    (∀ (α : Type) (l : List (ActionRecord α)), (save_actions l).length ≤ l.length) ∧
    (∀ (α : Type) (a : ActionRecord α),
        (∀ e ∈ a, e.1 = "interacted_element") → save_actions [a] = []) ∧
    (∃ l : List (ActionRecord Nat), (save_actions l).length < l.length) := by
  refine ⟨?_, ?_, ?_, ?_⟩
  · intro α l
    rw [save_actions, filterMap_eq_flatMap_toList]
    simp only [firstActionEntry_eq_find]
  · intro α l
    exact List.length_filterMap_le firstActionEntry l
  · intro α a h
    simp [save_actions, List.filterMap_cons_none (firstActionEntry_eq_none_of_all a h)]
  · exact ⟨[[("interacted_element", 0)]], by decide⟩

/-- Witness for C10 at a concrete all-auxiliary record. -/
theorem save_actions_order_preserving_reduction_witness :
    (∀ e ∈ [("interacted_element", (5 : Nat))], e.1 = "interacted_element") ∧
      save_actions [[("interacted_element", (5 : Nat))]] = [] :=
  ⟨by decide,
    save_actions_order_preserving_reduction.2.2.1 Nat [("interacted_element", 5)] (by decide)⟩

/-! Helper lemmas about the substring test used by the retry hook. -/

/-- Correctness of `startsWith`: it answers true exactly when the needle
is an initial segment of the hay. -/
theorem startsWith_iff (n h : List Char) :
    startsWith n h = true ↔ ∃ t, h = n ++ t := by
  induction n generalizing h with
  | nil => simp [startsWith]
  | cons a as ih =>
      cases h with
      | nil => simp [startsWith]
      | cons b bs =>
          simp only [startsWith, Bool.and_eq_true, beq_iff_eq, ih, List.cons_append,
            List.cons.injEq]
          constructor
          · rintro ⟨rfl, t, rfl⟩; exact ⟨t, rfl, rfl⟩
          · rintro ⟨t, rfl, rfl⟩; exact ⟨rfl, t, rfl⟩

/-- Correctness of `occursIn`: it answers true exactly when the needle
occurs contiguously in the hay. -/
theorem occursIn_iff (n h : List Char) :
    occursIn n h = true ↔ ∃ pre post, h = pre ++ n ++ post := by
  induction h with
  | nil =>
      simp only [occursIn, startsWith_iff]
      constructor
      · rintro ⟨t, ht⟩
        exact ⟨[], t, ht⟩
      · rintro ⟨pre, post, hp⟩
        rcases List.append_eq_nil.mp (List.append_eq_nil.mp hp.symm).1 with ⟨-, h2⟩
        exact ⟨post, by simp_all⟩
  | cons c rest ih =>
      simp only [occursIn, Bool.or_eq_true, startsWith_iff, ih]
      constructor
      · rintro (⟨t, ht⟩ | ⟨pre, post, hp⟩)
        · exact ⟨[], t, by simp [ht]⟩
        · exact ⟨c :: pre, post, by simp [hp]⟩
      · rintro ⟨pre, post, hp⟩
        cases pre with
        | nil => exact Or.inl ⟨post, by simpa using hp⟩
        | cons p ps =>
            right
            simp only [List.cons_append, List.cons.injEq] at hp
            exact ⟨ps, post, hp.2⟩

/-- The propositional substring containment agrees with the executable
test on the character lists of the strings. -/
theorem strIn_iff (n h : String) : strIn n h ↔ occursIn n.data h.data = true := by
  unfold strIn
  exact (occursIn_iff n.data h.data).symm

/-- C7: the retry hook enqueues exactly one retry instruction when any
of the configured failure substrings occurs in the lowercased page
address, and enqueues nothing when none occurs. -/
theorem retry_hook_enqueues_iff_failure_url (current_url : String) :
    ((∃ err ∈ error_indicators, strIn err (pyLower current_url)) →
        (retry_hook current_url).newTasks = [retry_instruction]) ∧
    ((∀ err ∈ error_indicators, ¬ strIn err (pyLower current_url)) →
        (retry_hook current_url).newTasks = []) := by
  constructor
  · rintro ⟨err, hmem, hin⟩
    have hany : error_indicators.any
        (fun e => occursIn e.data (pyLower current_url).data) = true :=
      List.any_eq_true.mpr ⟨err, hmem, (strIn_iff err (pyLower current_url)).mp hin⟩
    simp [retry_hook, hany]
  · intro h
    have hany : error_indicators.any
        (fun e => occursIn e.data (pyLower current_url).data) = false := by
      rw [List.any_eq_false]
      intro e hmem
      rw [Bool.not_eq_true]
      rcases hb : occursIn e.data (pyLower current_url).data with - | -
      · rfl
      · exact absurd ((strIn_iff e (pyLower current_url)).mpr hb) (h e hmem)
    simp [retry_hook, hany]

/-- Witness for C7 at a failing address and a clean address. -/
theorem retry_hook_enqueues_iff_failure_url_witness :
    ((∃ err ∈ error_indicators, strIn err (pyLower "https://tracking.example/Search-FAILED")) ∧
      (retry_hook "https://tracking.example/Search-FAILED").newTasks = [retry_instruction]) ∧
    ((∀ err ∈ error_indicators, ¬ strIn err (pyLower "https://ok.example/track")) ∧
      (retry_hook "https://ok.example/track").newTasks = []) := by
  have h1 : ∃ err ∈ error_indicators, strIn err (pyLower "https://tracking.example/Search-FAILED") :=
    ⟨"failed", by decide,
      (strIn_iff "failed" (pyLower "https://tracking.example/Search-FAILED")).mpr (by decide)⟩
  have hbool : ∀ err ∈ error_indicators,
      occursIn err.data (pyLower "https://ok.example/track").data = false := by decide
  have h2 : ∀ err ∈ error_indicators, ¬ strIn err (pyLower "https://ok.example/track") := by
    intro err hmem hin
    have := (strIn_iff err (pyLower "https://ok.example/track")).mp hin
    rw [hbool err hmem] at this
    exact Bool.false_ne_true this
  exact ⟨⟨h1, (retry_hook_enqueues_iff_failure_url "https://tracking.example/Search-FAILED").1 h1⟩,
    ⟨h2, (retry_hook_enqueues_iff_failure_url "https://ok.example/track").2 h2⟩⟩

/-- C8: given draws that satisfy the library contracts of
`random.uniform(1.0, 3.0)`, `random.random()` and `random.randint`, the
pacing hook sleeps for a duration in the interval from 1 to 3, issues a
single pointer move to coordinates inside the window 100 to 800 by 100
to 600 exactly when the draw `r` is below 0.3 (an event of probability
3/10 under the uniform law of `random.random()` on the interval from 0
inclusive to 1 exclusive), and issues no pointer move otherwise. -/
theorem anti_detection_hook_spec (delay r : ℝ) (mouseX mouseY : Int)
    (hd1 : 1 ≤ delay) (hd3 : delay ≤ 3)
    (hr0 : 0 ≤ r) (hr1 : r < 1)
    (hx1 : 100 ≤ mouseX) (hx2 : mouseX ≤ 800)
    (hy1 : 100 ≤ mouseY) (hy2 : mouseY ≤ 600) :
    (1 ≤ (anti_detection_hook delay r mouseX mouseY).slept ∧
        (anti_detection_hook delay r mouseX mouseY).slept ≤ 3) ∧
    (r < 3 / 10 →
        (anti_detection_hook delay r mouseX mouseY).mouseMove = some (mouseX, mouseY) ∧
          100 ≤ mouseX ∧ mouseX ≤ 800 ∧ 100 ≤ mouseY ∧ mouseY ≤ 600) ∧
    (3 / 10 ≤ r → (anti_detection_hook delay r mouseX mouseY).mouseMove = none) ∧
    MeasureTheory.volume
        {t : ℝ | t ∈ Set.Ico (0 : ℝ) 1 ∧
          (anti_detection_hook delay t mouseX mouseY).mouseMove.isSome = true}
      = ENNReal.ofReal (3 / 10) := by
  refine ⟨⟨hd1, hd3⟩, ?_, ?_, ?_⟩
  · intro h
    refine ⟨?_, hx1, hx2, hy1, hy2⟩
    simp [anti_detection_hook, if_pos h]
  · intro h
    simp [anti_detection_hook, not_lt.mpr h]
  · have hset : {t : ℝ | t ∈ Set.Ico (0 : ℝ) 1 ∧
        (anti_detection_hook delay t mouseX mouseY).mouseMove.isSome = true}
        = Set.Ico (0 : ℝ) (3 / 10) := by
      ext t
      simp only [Set.mem_setOf_eq, Set.mem_Ico, anti_detection_hook]
      constructor
      · rintro ⟨⟨h0, -⟩, hsome⟩
        refine ⟨h0, ?_⟩
        by_contra hge
        rw [if_neg hge] at hsome
        simp at hsome
      · rintro ⟨h0, h3⟩
        refine ⟨⟨h0, by linarith⟩, ?_⟩
        rw [if_pos h3]
        rfl
    rw [hset, Real.volume_Ico]
    norm_num

/-- Witness for C8 at the draws delay two, r one fifth, pointer
(400, 300). -/
theorem anti_detection_hook_spec_witness :
    ((1 : ℝ) ≤ 2 ∧ (2 : ℝ) ≤ 3 ∧ (0 : ℝ) ≤ 1 / 5 ∧ (1 / 5 : ℝ) < 1 ∧
      (100 : Int) ≤ 400 ∧ (400 : Int) ≤ 800 ∧ (100 : Int) ≤ 300 ∧ (300 : Int) ≤ 600) ∧
    ((1 ≤ (anti_detection_hook (2 : ℝ) (1 / 5) 400 300).slept ∧
        (anti_detection_hook (2 : ℝ) (1 / 5) 400 300).slept ≤ 3) ∧
      ((1 / 5 : ℝ) < 3 / 10 →
          (anti_detection_hook (2 : ℝ) (1 / 5) 400 300).mouseMove = some (400, 300) ∧
            (100 : Int) ≤ 400 ∧ (400 : Int) ≤ 800 ∧ (100 : Int) ≤ 300 ∧ (300 : Int) ≤ 600) ∧
      ((3 / 10 : ℝ) ≤ 1 / 5 →
          (anti_detection_hook (2 : ℝ) (1 / 5) 400 300).mouseMove = none) ∧
      MeasureTheory.volume
          {t : ℝ | t ∈ Set.Ico (0 : ℝ) 1 ∧
            (anti_detection_hook (2 : ℝ) t 400 300).mouseMove.isSome = true}
        = ENNReal.ofReal (3 / 10)) :=
  ⟨by norm_num,
    anti_detection_hook_spec 2 (1 / 5) 400 300 (by norm_num) (by norm_num) (by norm_num)
      (by norm_num) (by norm_num) (by norm_num) (by norm_num) (by norm_num)⟩

/-! Theorems about the fetch flow. -/

/-- C4: with no trace file the agent is handed the fresh-discovery task,
which contains the booking identifier and the target site address, and
is seeded with no initial actions; with a trace file that parses, a
replay agent is built whose initial actions are exactly the
parsed contents. -/
theorem fetch_hmm_task_selection {α : Type} (booking_id : String) (env : Env α) :
    (env.stepsFileExists = false →
        ∃ cfg : AgentConfig α, (fetch_hmm booking_id env).agentConfig = some cfg ∧
          cfg.task = freshTask booking_id ∧
          (∃ pre post, cfg.task = pre ++ (booking_id ++ post)) ∧
          (∃ pre post, cfg.task = pre ++ (target_url ++ post)) ∧
          cfg.initialActions = none) ∧
    (env.stepsFileExists = true → env.parseOk = true →
        ∃ cfg : AgentConfig α, (fetch_hmm booking_id env).agentConfig = some cfg ∧
          cfg.task = replayTask booking_id ∧
          cfg.initialActions = some env.storedSteps) := by
  constructor
  · intro hf
    refine ⟨{ task := freshTask booking_id, messageContext := none, initialActions := none },
      ?_, rfl, ?_, ?_, rfl⟩
    · cases henv : env.agentRun <;> simp [fetch_hmm, hf, henv]
    · exact ⟨freshTaskPart1, freshTaskPart2 ++ (target_url ++ freshTaskPart3),
        String.append_assoc _ _ _⟩
    · exact ⟨freshTaskPart1 ++ booking_id ++ freshTaskPart2, freshTaskPart3,
        (String.append_assoc _ _ _).symm⟩
  · intro hf hp
    refine ⟨{ task := replayTask booking_id
              messageContext := some (replayContext booking_id)
              initialActions := some env.storedSteps }, ?_, rfl, rfl⟩
    cases henv : env.agentRun <;> simp [fetch_hmm, hf, hp, henv]

/-- Witness for C4 at a fresh-path environment and a replay-path
environment. -/
theorem fetch_hmm_task_selection_witness :
    (freshEnv.stepsFileExists = false ∧
      ∃ cfg : AgentConfig Nat, (fetch_hmm "SINI25432400" freshEnv).agentConfig = some cfg ∧
        cfg.task = freshTask "SINI25432400" ∧
        (∃ pre post, cfg.task = pre ++ ("SINI25432400" ++ post)) ∧
        (∃ pre post, cfg.task = pre ++ (target_url ++ post)) ∧
        cfg.initialActions = none) ∧
    (replayEnv.stepsFileExists = true ∧ replayEnv.parseOk = true ∧
      ∃ cfg : AgentConfig Nat, (fetch_hmm "SINI25432400" replayEnv).agentConfig = some cfg ∧
        cfg.task = replayTask "SINI25432400" ∧
        cfg.initialActions = some replayEnv.storedSteps) :=
  ⟨⟨rfl, (fetch_hmm_task_selection "SINI25432400" freshEnv).1 rfl⟩,
    ⟨rfl, rfl, (fetch_hmm_task_selection "SINI25432400" replayEnv).2 rfl rfl⟩⟩

/-- C5: the trace file is written only on the fresh path and only when
the final result of the agent is truthy: the replay path never writes, a
raised run never writes, a fresh run without a final answer never
writes, and any write carries exactly the serialized recorded actions of
a truthy fresh run. -/
theorem fetch_hmm_trace_write_policy {α : Type} (booking_id : String) (env : Env α) :
    (env.stepsFileExists = true → (fetch_hmm booking_id env).fileWritten = none) ∧
    (env.agentRun = AgentRunOutcome.raises →
        (fetch_hmm booking_id env).fileWritten = none) ∧
    (∀ modelActions, env.agentRun = AgentRunOutcome.completes none modelActions →
        (fetch_hmm booking_id env).fileWritten = none) ∧
    (∀ l, (fetch_hmm booking_id env).fileWritten = some l →
        env.stepsFileExists = false ∧
          ∃ s modelActions,
            env.agentRun = AgentRunOutcome.completes (some s) modelActions ∧
              s ≠ "" ∧ l = save_actions modelActions) := by
  refine ⟨?_, ?_, ?_, ?_⟩
  · intro hf
    cases hp : env.parseOk with
    | false => simp [fetch_hmm, hf, hp]
    | true => cases henv : env.agentRun <;> simp [fetch_hmm, hf, hp, henv]
  · intro hr
    cases hf : env.stepsFileExists with
    | false => simp [fetch_hmm, hf, hr]
    | true => cases hp : env.parseOk <;> simp [fetch_hmm, hf, hp, hr]
  · intro modelActions hm
    cases hf : env.stepsFileExists with
    | false => simp [fetch_hmm, hf, hm, strTruthy]
    | true => cases hp : env.parseOk <;> simp [fetch_hmm, hf, hp, hm]
  · intro l hl
    cases hf : env.stepsFileExists with
    | false =>
        cases henv : env.agentRun with
        | raises => simp [fetch_hmm, hf, henv] at hl
        | completes finalResult modelActions =>
            cases finalResult with
            | none => simp [fetch_hmm, hf, henv, strTruthy] at hl
            | some s =>
                by_cases hs : s = ""
                · simp [fetch_hmm, hf, henv, strTruthy, hs] at hl
                · refine ⟨rfl, s, modelActions, rfl, hs, ?_⟩
                  simp [fetch_hmm, hf, henv, strTruthy, hs] at hl
                  exact hl.symm
    | true =>
        cases hp : env.parseOk with
        | false => simp [fetch_hmm, hf, hp] at hl
        | true => cases henv : env.agentRun <;> simp [fetch_hmm, hf, hp, henv] at hl

/-- Witness for C5 at a replay-path environment whose run reports a
truthy final answer. -/
theorem fetch_hmm_trace_write_policy_witness :
    ((Env.mk true true ([] : List (ActionEntry Nat))
        (AgentRunOutcome.completes (some "x") [])).stepsFileExists = true) ∧
      (fetch_hmm "SINI25432400"
        (Env.mk true true ([] : List (ActionEntry Nat))
          (AgentRunOutcome.completes (some "x") []))).fileWritten = none :=
  ⟨rfl, (fetch_hmm_trace_write_policy "SINI25432400"
    (Env.mk true true ([] : List (ActionEntry Nat))
      (AgentRunOutcome.completes (some "x") []))).1 rfl⟩

/-- C9: whenever `fetch_hmm` invokes the agent run, it passes exactly
the pacing hook, the retry hook, and the fixed step cap of 20, on both
the replay and the fresh path; the run is skipped only when the replay
trace parse on the replay path failed. -/
theorem fetch_hmm_step_cap {α : Type} (booking_id : String) (env : Env α) :
    ((fetch_hmm booking_id env).runCall = none ↔
        env.stepsFileExists = true ∧ env.parseOk = false) ∧
    ((fetch_hmm booking_id env).runCall = none ∨
      (fetch_hmm booking_id env).runCall
        = some { onStepStart := HookRef.antiDetection, onStepEnd := HookRef.retry
                 maxSteps := 20 }) := by
  cases hf : env.stepsFileExists with
  | false =>
      cases henv : env.agentRun <;>
        simp [fetch_hmm, hf, henv, theRunCall]
  | true =>
      cases hp : env.parseOk with
      | false => simp [fetch_hmm, hf, hp]
      | true =>
          cases henv : env.agentRun <;>
            simp [fetch_hmm, hf, hp, henv, theRunCall]

/-- Witness for C9 at a fresh-path environment. -/
theorem fetch_hmm_step_cap_witness :
    ((fetch_hmm "SINI25432400" freshEnv).runCall = none ↔
        freshEnv.stepsFileExists = true ∧ freshEnv.parseOk = false) ∧
    ((fetch_hmm "SINI25432400" freshEnv).runCall = none ∨
      (fetch_hmm "SINI25432400" freshEnv).runCall
        = some { onStepStart := HookRef.antiDetection, onStepEnd := HookRef.retry
                 maxSteps := 20 }) :=
  fetch_hmm_step_cap "SINI25432400" freshEnv

/-- C3: every exception raised inside the try body of `fetch_hmm` is
swallowed at the outer boundary: the error message is logged and the
call falls through with the Python implicit `None`, propagating nothing to
the caller. -/
theorem fetch_hmm_swallows_exceptions {α : Type} (booking_id : String) (env : Env α)
    (h : raisedDuringRun env) :
    (fetch_hmm booking_id env).ret = none ∧
      (fetch_hmm booking_id env).loggedError = true := by
  rcases h with ⟨hf, hp⟩ | ⟨hpath, hr⟩
  · simp [fetch_hmm, hf, hp]
  · cases hf : env.stepsFileExists with
    | false => simp [fetch_hmm, hf, hr]
    | true => simp [fetch_hmm, hf, hpath hf, hr]

/-- Witness for C3 at an environment whose trace parse fails. -/
theorem fetch_hmm_swallows_exceptions_witness :
    raisedDuringRun badParseEnv ∧
      ((fetch_hmm "SINI25432400" badParseEnv).ret = none ∧
        (fetch_hmm "SINI25432400" badParseEnv).loggedError = true) :=
  ⟨Or.inl ⟨rfl, rfl⟩,
    fetch_hmm_swallows_exceptions "SINI25432400" badParseEnv (Or.inl ⟨rfl, rfl⟩)⟩

/-- Length comparison shows the sample answer "hello" is not of the
documented voyage shape. -/
theorem hello_not_voyageArrivalShape : ¬ voyageArrivalShape "hello" := by
  rintro ⟨a, b, h⟩
  have hl := congrArg String.length h
  simp only [String.length_append] at hl
  have h5 : "hello".length = 5 := rfl
  have h8 : "Voyage: ".length = 8 := rfl
  have h11 : ", Arrival: ".length = 11 := rfl
  rw [h5, h8, h11] at hl
  omega

/-- Counterexample to C2 as stated: with no trace file, a run whose
agent raises returns no value at all, and a run whose agent answers
"hello" returns a string that neither matches the voyage shape nor
equals the sentinel. -/
theorem fetch_hmm_return_shape_counterexample :
    (¬ ∃ s, (fetch_hmm "SINI25432400"
          (Env.mk false true ([] : List (ActionEntry Nat)) AgentRunOutcome.raises)).ret
            = some s ∧ (voyageArrivalShape s ∨ s = no_results)) ∧
    (¬ ∃ s, (fetch_hmm "SINI25432400"
          (Env.mk false true ([] : List (ActionEntry Nat))
            (AgentRunOutcome.completes (some "hello") []))).ret
            = some s ∧ (voyageArrivalShape s ∨ s = no_results)) := by
  constructor
  · rintro ⟨s, hs, -⟩
    have hret : (fetch_hmm "SINI25432400"
        (Env.mk false true ([] : List (ActionEntry Nat)) AgentRunOutcome.raises)).ret
          = none := rfl
    rw [hret] at hs
    exact Option.noConfusion hs
  · rintro ⟨s, hs, hshape⟩
    have hret : (fetch_hmm "SINI25432400"
        (Env.mk false true ([] : List (ActionEntry Nat))
          (AgentRunOutcome.completes (some "hello") []))).ret
          = some "hello" := rfl
    rw [hret] at hs
    obtain rfl : "hello" = s := Option.some.inj hs
    rcases hshape with hsh | hsh
    · exact hello_not_voyageArrivalShape hsh
    · exact absurd hsh (by decide)

/-- C2 amended: with no trace file, `fetch_hmm` either returns no value
(the swallowed-exception fall-through), or returns the sentinel, or
returns the nonempty final answer of the agent verbatim — the code performs
no validation of the "Voyage: .., Arrival: .." format. -/
theorem fetch_hmm_no_file_return_cases {α : Type} (booking_id : String) (env : Env α)
    (hfile : env.stepsFileExists = false) :
    (fetch_hmm booking_id env).ret = none ∨
    (fetch_hmm booking_id env).ret = some no_results ∨
    ∃ s modelActions, env.agentRun = AgentRunOutcome.completes (some s) modelActions ∧
      s ≠ "" ∧ (fetch_hmm booking_id env).ret = some s := by
  cases henv : env.agentRun with
  | raises => exact Or.inl (by simp [fetch_hmm, hfile, henv])
  | completes finalResult modelActions =>
      cases finalResult with
      | none =>
          exact Or.inr (Or.inl (by simp [fetch_hmm, hfile, henv, resultOrSentinel]))
      | some s =>
          by_cases hs : s = ""
          · exact Or.inr (Or.inl (by simp [fetch_hmm, hfile, henv, resultOrSentinel, hs]))
          · exact Or.inr (Or.inr ⟨s, modelActions, rfl, hs,
              by simp [fetch_hmm, hfile, henv, resultOrSentinel, hs]⟩)

/-- Witness for the amended C2 at a fresh run without a final answer. -/
theorem fetch_hmm_no_file_return_cases_witness :
    freshEnv.stepsFileExists = false ∧
      ((fetch_hmm "SINI25432400" freshEnv).ret = none ∨
        (fetch_hmm "SINI25432400" freshEnv).ret = some no_results ∨
        ∃ s modelActions,
          freshEnv.agentRun = AgentRunOutcome.completes (some s) modelActions ∧
            s ≠ "" ∧ (fetch_hmm "SINI25432400" freshEnv).ret = some s) :=
  ⟨rfl, fetch_hmm_no_file_return_cases "SINI25432400" freshEnv rfl⟩

/-- Counterexample to C6 as stated: when the agent completes with the
empty string as its final answer, `fetch_hmm` returns the sentinel even
though a final answer exists, so "sentinel iff no final answer" fails
(and the existing answer is not returned as-is). -/
theorem fetch_hmm_sentinel_iff_counterexample :
    ¬ (((fetch_hmm "SINI25432400"
          (Env.mk false true ([] : List (ActionEntry Nat))
            (AgentRunOutcome.completes (some "") []))).ret = some no_results ↔
        (some "" : Option String) = none) ∧
        ∀ s : String, (some "" : Option String) = some s →
          (fetch_hmm "SINI25432400"
            (Env.mk false true ([] : List (ActionEntry Nat))
              (AgentRunOutcome.completes (some "") []))).ret = some s) := by
  rintro ⟨hiff, -⟩
  have hret : (fetch_hmm "SINI25432400"
      (Env.mk false true ([] : List (ActionEntry Nat))
        (AgentRunOutcome.completes (some "") []))).ret = some no_results := rfl
  exact Option.noConfusion (hiff.mp hret)

/-- On any completing run, the returned value is exactly
`resultOrSentinel` of the final result of the agent. -/
theorem fetch_hmm_ret_of_completes {α : Type} (booking_id : String) (env : Env α)
    (hpath : env.stepsFileExists = true → env.parseOk = true)
    (finalResult : Option String) (modelActions : List (ActionRecord α))
    (hrun : env.agentRun = AgentRunOutcome.completes finalResult modelActions) :
    (fetch_hmm booking_id env).ret = some (resultOrSentinel finalResult) := by
  cases hf : env.stepsFileExists with
  | false => simp [fetch_hmm, hf, hrun]
  | true => simp [fetch_hmm, hf, hpath hf, hrun]

/-- C6 amended: on every non-exception run, `fetch_hmm` returns the
final answer of the agent, verbatim, when it is present and nonempty, and the
sentinel "No results found" when the final answer is absent or empty
(Python truthiness lumps the empty answer with the absent one). -/
theorem fetch_hmm_result_or_sentinel {α : Type} (booking_id : String) (env : Env α)
    (hpath : env.stepsFileExists = true → env.parseOk = true)
    (finalResult : Option String) (modelActions : List (ActionRecord α))
    (hrun : env.agentRun = AgentRunOutcome.completes finalResult modelActions) :
    (∀ s, finalResult = some s → s ≠ "" → (fetch_hmm booking_id env).ret = some s) ∧
      ((finalResult = none ∨ finalResult = some "") →
        (fetch_hmm booking_id env).ret = some no_results) := by
  have hret := fetch_hmm_ret_of_completes booking_id env hpath finalResult modelActions hrun
  constructor
  · rintro s rfl hs
    rw [hret]
    simp [resultOrSentinel, hs]
  · rintro (rfl | rfl) <;> rw [hret] <;> simp [resultOrSentinel]

/-- Witness for the amended C6 at a fresh run with a nonempty final
answer. -/
theorem fetch_hmm_result_or_sentinel_witness :
    ((successEnv.stepsFileExists = true → successEnv.parseOk = true) ∧
      successEnv.agentRun
        = AgentRunOutcome.completes (some "Voyage: 123, Arrival: Jan 1") []) ∧
    ((∀ s, (some "Voyage: 123, Arrival: Jan 1" : Option String) = some s → s ≠ "" →
        (fetch_hmm "SINI25432400" successEnv).ret = some s) ∧
      (((some "Voyage: 123, Arrival: Jan 1" : Option String) = none ∨
          (some "Voyage: 123, Arrival: Jan 1" : Option String) = some "") →
        (fetch_hmm "SINI25432400" successEnv).ret = some no_results)) :=
  ⟨⟨by intro h; exact Bool.noConfusion h, rfl⟩,
    fetch_hmm_result_or_sentinel "SINI25432400" successEnv
      (by intro h; exact Bool.noConfusion h)
      (some "Voyage: 123, Arrival: Jan 1") [] rfl⟩

end BrowserAuto
